import Mathlib

/-!
Verification of the selection/interaction compiler of a declarative
visualization library (the selection assembler in `compile/selection` and the
legend parser/merger in `compile/legend/parse.ts`).

The TypeScript sources are shallowly embedded: JavaScript objects become Lean
structures, string templates become explicit `String` concatenations (literal
braces and single quotes are written with `\x7b`, `\x7d` and `\x27` escapes),
in-place array/object mutation becomes explicit state passing, and `undefined`
becomes `Option`.  Helper modules that are outside the provided sources
(`util.ts`, `split.ts`, `datetime.ts`, `resolve.ts`, the selection constants
module) are modelled from the specification; each such definition carries a
doc comment starting with `Modelled from the spec:`.
-/

set_option autoImplicit false

namespace VegaLite

/-! ## Generic list helpers mirroring the JavaScript idioms used in the source -/

/-- JavaScript `arr.filter((v, i, a) => a.indexOf(v) === i)`: deduplicate a
list keeping the first occurrence of every element, preserving order. -/
def uniqueFirst (l : List String) : List String :=
  l.foldl (fun acc v => if v ∈ acc then acc else acc ++ [v]) []

/-- Lookup in an association list (JavaScript object property read). -/
def lookupA {κ α : Type} [DecidableEq κ] : List (κ × α) → κ → Option α
  | [], _ => none
  | (k, v) :: rest, key => if k = key then some v else lookupA rest key

/-- Insert-or-replace in an association list (JavaScript object property
assignment, which keeps the position of an existing key). -/
def upsertA {κ α : Type} [DecidableEq κ] : List (κ × α) → κ → α → List (κ × α)
  | [], key, v => [(key, v)]
  | (k, w) :: rest, key, v =>
    if k = key then (k, v) :: rest else (k, w) :: upsertA rest key v

/-- Delete a key from an association list (JavaScript `delete obj[key]`). -/
def removeA {κ α : Type} [DecidableEq κ] : List (κ × α) → κ → List (κ × α)
  | [], _ => []
  | (k, w) :: rest, key =>
    if k = key then rest else (k, w) :: removeA rest key

/-- Apply `f` to the first element satisfying `p`, leaving the rest unchanged.
This models the JavaScript pattern `arr.filter(p)[0]` followed by in-place
mutation of the found object. -/
def updateFirst {α : Type} (p : α → Bool) (f : α → α) : List α → List α
  | [] => []
  | x :: rest => if p x then f x :: rest else x :: updateFirst p f rest

/-! ## Constants and string helpers from the selection/util modules -/

/-- Modelled from the spec: suffix of the per-selection store dataset name
(`<selection>_store`). -/
def STORE : String := "_store"

/-- Modelled from the spec: suffix of the per-selection tuple signal name
(`<name>_tuple`). -/
def TUPLE : String := "_tuple"

/-- Modelled from the spec: suffix of the legend-interaction mark names
(`symbols_<field>_legend`, `labels_<field>_legend`). -/
def LEGEND : String := "_legend"

/-- Modelled from the spec: suffix of the per-selection modify signal name. -/
def MODIFY : String := "_modify"

/-- Modelled from the spec: `stringValue` from vega-util quotes a string so it
can be spliced into generated expression code. -/
def stringValue (s : String) : String := "\"" ++ s ++ "\""

/-- Modelled from the spec: selection names are used as signal/variable
identifiers; the sanitization helper `varName` lives outside the provided
sources, so names are assumed already valid and `varName` is the identity on
them. -/
def varName (s : String) : String := s

/-- Modelled from the spec: `accessPathWithDatum(field, datum)` builds the
field-access expression `datum["field"]` parameterized by the chosen field and
the base object (here the selection's resolution signal name). -/
def accessPathWithDatum (field datum : String) : String :=
  datum ++ "[" ++ stringValue field ++ "]"

/-! ## Data model: selections, projections, field definitions, unit models -/

/-- One entry of a selection's projection: `{field, channel?}`.  The optional
per-entry time unit is not needed by any embedded operation. -/
structure ProjectEntry where
  field : String
  channel : Option String := none
deriving DecidableEq

/-- A selection component as consumed by the embedded operations: its name,
`empty` policy (`"all"` or `"none"`), `resolve` policy, ordered projection,
whether the projection carries a time-unit dataflow node, and the optional
interactive-legend `fields` list (a dynamic property on the component; an
empty array is still a present property, hence `Option (List String)`). -/
structure SelectionComponent where
  name : String
  empty : String := "all"
  resolve : String := "global"
  project : List ProjectEntry := []
  projectTimeUnit : Bool := false
  fields : Option (List String) := none
deriving DecidableEq

/-- The nine non-position scale channels a legend can attach to. -/
inductive Channel where
  | color | fill | stroke | strokeWidth | size | shape
  | opacity | fillOpacity | strokeOpacity
deriving DecidableEq

/-- A field definition as read by `interactiveLegendExists`: the field name
and whether the `bin` / `aggregate` / `timeUnit` properties are present on the
definition object (`hasOwnProperty`, so presence matters, not the value). -/
structure FieldDef where
  field : String
  hasBin : Bool := false
  hasAggregate : Bool := false
  hasTimeUnit : Bool := false
deriving DecidableEq

/-- The derived, transient record produced by `interactiveLegendExists`:
`{name, store: stringValue(name + STORE), fields}`. -/
structure InteractiveSelections where
  name : String
  store : String
  fields : List String
deriving DecidableEq

/-- The slice of a unit model consumed by the embedded operations.
`selections` is the iteration order of `forEachSelection`; `fieldDefs` is
`model.fieldDef(channel)`; `ownSelection` is `model.component.selection` (the
model's own selection index); `getSel` is `model.getSelectionComponent`
(hierarchy-wide lookup, assumed to succeed per the spec's invariant that
malformed names are prevented upstream); `unitNameExpr` is `unitName(model)`,
a helper outside the provided sources. -/
structure UnitModel where
  parent : Bool := false
  selections : List SelectionComponent := []
  fieldDefs : Channel → Option FieldDef := fun _ => none
  ownSelection : List (String × SelectionComponent) := []
  getSel : String → SelectionComponent := fun n => { name := n }
  unitNameExpr : String := "\"unit\""

/-! ## assembleInit (Expression Assembler) -/

/-- A date/time initializer object `{year, month, date}` (the further
components are defaulted by the date-expression constructor). -/
structure DateTimeRec where
  year : Int
  month : Int
  date : Int
deriving DecidableEq

/-- Modelled from the spec: `dateTimeExpr` (in `datetime.ts`, outside the
provided sources) renders a date/time object via the runtime's date
constructor; the 1-based month of the input becomes 0-based in the emitted
call and the remaining components are defaulted. -/
def dateTimeExpr (d : DateTimeRec) : String :=
  "datetime(" ++ toString d.year ++ ", " ++ toString (d.month - 1) ++ ", " ++
    toString d.date ++ ", 0, 0, 0, 0)"

/-- A selection initializer: a scalar (number, string, boolean), a date/time
object, or a (possibly nested) array of initializers. -/
inductive InitValue where
  | num : Int → InitValue
  | str : String → InitValue
  | bool : Bool → InitValue
  | dateTime : DateTimeRec → InitValue
  | arr : List InitValue → InitValue

/-- `JSON.stringify` on the scalar initializers. -/
def jsonStringifyScalar : InitValue → String
  | .num n => toString n
  | .str s => "\"" ++ s ++ "\""
  | .bool b => if b then "true" else "false"
  | _ => ""

mutual

/-- `assembleInit` from the selection assembler: arrays render as bracketed,
comma-joined recursively assembled elements (no `wrap` on the brackets), a
date/time object renders via the date-expression constructor then `wrap`, and
any other scalar is JSON-serialized then `wrap`. -/
def assembleInit (init : InitValue) (wrap : String → String) : String :=
  match init with
  | .arr l => "[" ++ String.intercalate ", " (assembleInitList l wrap) ++ "]"
  | .dateTime d => wrap (dateTimeExpr d)
  | v => wrap (jsonStringifyScalar v)

/-- `init.map(v => assembleInit(v, wrap))` from the array case. -/
def assembleInitList (l : List InitValue) (wrap : String → String) : List String :=
  match l with
  | [] => []
  | x :: xs => assembleInit x wrap :: assembleInitList xs wrap

end

/-! ## assembleUnitSelectionData -/

/-- A dataset entry in the assembled output; the store datasets pushed by the
assembler are `{name}` records, incoming datasets may carry further (opaque)
content. -/
structure VgData where
  name : String
  payload : Option String := none
deriving DecidableEq

/-- The `forEachSelection` body of `assembleUnitSelectionData`: push an
empty-initialized `{name: <selection>_store}` dataset unless one of that name
is already contained in the list. -/
def ensureStoreStep (d : List VgData) (selCmpt : SelectionComponent) : List VgData :=
  if (d.filter (fun x => x.name = selCmpt.name ++ STORE)).isEmpty
  then d ++ [{ name := selCmpt.name ++ STORE }]
  else d

/-- `assembleUnitSelectionData`: for every selection of the unit model, append
an empty-initialized dataset named `<selection>_store` unless a dataset of
that name is already present in the incoming list. -/
def assembleUnitSelectionData (model : UnitModel) (data : List VgData) : List VgData :=
  model.selections.foldl ensureStoreStep data

/-! ## interactiveLegendExists (Interactive-Legend Binder predicate) -/

/-- The `forEachSelection` pass of `interactiveLegendExists`: the subset of
the model's selections carrying an interactive-legend `fields` property
(a present property, even an empty array, is truthy), each recorded as
`{name, store: stringValue(name + STORE), fields}` in iteration order. -/
def fieldProjSelections (model : UnitModel) : List InteractiveSelections :=
  model.selections.filterMap (fun selCmpt =>
    match selCmpt.fields with
    | some fs => some { name := selCmpt.name
                        store := stringValue (selCmpt.name ++ STORE)
                        fields := fs }
    | none => none)

/-- The flattened, first-occurrence-deduplicated union of the projected field
lists of the given selections. -/
def selectionFieldsOf (selections : List InteractiveSelections) : List String :=
  uniqueFirst (selections.map (fun s => s.fields)).flatten

/-- The deduplicated list of fields used by the model's color/opacity/size/
shape encodings, skipping any field definition that carries a `bin`,
`aggregate` or `timeUnit` property. -/
def encodingFieldsOf (model : UnitModel) : List String :=
  uniqueFirst
    (([Channel.color, Channel.opacity, Channel.size, Channel.shape]).filterMap
      (fun channel =>
        match model.fieldDefs channel with
        | some fieldDef =>
          if fieldDef.hasBin || fieldDef.hasAggregate || fieldDef.hasTimeUnit
          then none
          else some fieldDef.field
        | none => none))

/-- `interactiveLegendExists` from `compile/legend/parse.ts`: on a view root
(no parent), collect every selection that projects a `fields` list; quit with
`[]` if there are none, or if some projected field is not among the fields of
the color/opacity/size/shape encodings (`differenceFields`); otherwise return
the collected selections. -/
def interactiveLegendExists (model : UnitModel) : List InteractiveSelections :=
  if model.parent then []
  else
    let selections := fieldProjSelections model
    if selections = [] then []
    else
      let selectionFields := selectionFieldsOf selections
      let encodingFields := encodingFieldsOf model
      let differenceFields := selectionFields.filter
        (fun x => !(encodingFields.contains x))
      if differenceFields ≠ [] then [] else selections

/-! ## assembleSelectionPredicate (Expression Assembler) -/

/-- A logical AND/OR/NOT tree over selection names, the argument shape of
`assembleSelectionPredicate`. -/
inductive LogicalOperandS where
  | leaf : String → LogicalOperandS
  | notOp : LogicalOperandS → LogicalOperandS
  | andOp : List LogicalOperandS → LogicalOperandS
  | orOp : List LogicalOperandS → LogicalOperandS

/-- The per-leaf `expr` closure of `assembleSelectionPredicate`: resolve the
selection component, record its store in the accumulated `stores` list unless
its `empty` policy is `"none"`, and emit the `vlSelectionTest` base test.  The
time-unit branch of the source only splices a transform node into the
dataflow graph and does not contribute to the returned expression, so it is
not reflected in this pure embedding. -/
def selPredExpr (model : UnitModel) (name : String) (stores : List String) :
    String × List String :=
  let vname := varName name
  let selCmpt := model.getSel vname
  let store := stringValue (vname ++ STORE)
  let stores := if selCmpt.empty ≠ "none" then stores ++ [store] else stores
  ("vlSelectionTest(" ++ store ++ ", datum" ++
    (if selCmpt.resolve = "global" then ")"
     else ", " ++ stringValue selCmpt.resolve ++ ")"),
   stores)

mutual

/-- Modelled from the spec: `logicalExpr` (in `util.ts`, outside the provided
sources) renders an AND/OR/NOT tree by joining the parenthesized rendered
children; the per-leaf callback here additionally threads the store
accumulator that the source's closure mutates. -/
def logicalExprS (op : LogicalOperandS)
    (cb : String → List String → String × List String) (st : List String) :
    String × List String :=
  match op with
  | .leaf n => cb n st
  | .notOp o =>
    let (s, st) := logicalExprS o cb st
    ("!(" ++ s ++ ")", st)
  | .andOp l =>
    let (ss, st) := logicalExprListS l cb st
    ("(" ++ String.intercalate ") && (" ss ++ ")", st)
  | .orOp l =>
    let (ss, st) := logicalExprListS l cb st
    ("(" ++ String.intercalate ") || (" ss ++ ")", st)

/-- Renders the children of an AND/OR node left to right, threading state. -/
def logicalExprListS (l : List LogicalOperandS)
    (cb : String → List String → String × List String) (st : List String) :
    List String × List String :=
  match l with
  | [] => ([], st)
  | x :: xs =>
    let (s, st) := logicalExprS x cb st
    let (ss, st) := logicalExprListS xs cb st
    (s :: ss, st)

end

/-- `assembleSelectionPredicate`: render the logical tree over per-selection
`vlSelectionTest` leaves, then prefix the parenthesized predicate with
`!(<OR of length(data(store)) checks>) || ` over the stores of the leaves
whose `empty` policy is not `"none"`. -/
def assembleSelectionPredicate (model : UnitModel)
    (selections : LogicalOperandS) : String :=
  let (predicateStr, stores) := logicalExprS selections (selPredExpr model) []
  (if stores ≠ [] then
    "!(" ++
      String.intercalate " || "
        (stores.map (fun s => "length(data(" ++ s ++ "))")) ++
      ") || "
   else "") ++ "(" ++ predicateStr ++ ")"

/-! ## assembleSelectionScaleDomain (Scale-Domain Predicate Rewriter) -/

/-- The decoded payload of a provisional selection-driven scale domain:
`{selection, encoding?, field?}`.  The source recovers it by `JSON.parse` of
the marker-stripped signal string; the embedding takes the already-decoded
record. -/
structure SelectionDomain where
  selection : String
  encoding : Option String := none
  field : Option String := none

/-- Warning emitted when the selection is already bound at this view. -/
def bindScalesWarning : String :=
  "Use \"bind\": \"scales\" to setup a binding for scales and selections within the same view."

/-- Warning emitted when neither field nor encoding disambiguates a
multi-field projection. -/
def fieldOrEncodingWarning (field : String) : String :=
  "A \"field\" or \"encoding\" must be specified when using a selection as a scale domain. " ++
    "Using \"field\": " ++ stringValue field ++ "."

/-- Warning emitted when an encoding channel matches zero or several
projection entries. -/
def encodingMatchWarning (noMatch : Bool) (encoding selection field : String) :
    String :=
  (if noMatch then "No " else "Multiple ") ++
    "matching " ++ stringValue encoding ++ " encoding found for selection " ++
    stringValue selection ++ ". " ++ "Using \"field\": " ++ stringValue field ++ "."

/-- First projected field of a selection component.  The spec guarantees a
projection of length at least one; the empty case (an upstream invariant
violation that would fault in the source) is given a dummy value. -/
def firstProjectField (selCmpt : SelectionComponent) : String :=
  (selCmpt.project.headD { field := "" }).field

/-- `assembleSelectionScaleDomain`: resolve the domain field — an explicit
field is used as-is; with only an encoding channel, exactly one matching
projection entry wins while zero or several matches fall back to the first
projected field with a warning; with neither, the first projected field is
used (warning if the projection has several fields).  If the model itself
already has a same-named selection component, no rewrite happens: only a
warning is emitted and the literal signal `null` is returned.  The returned
pair is (signal expression, warnings emitted via `warn`). -/
def assembleSelectionScaleDomain (model : UnitModel)
    (selDomain : SelectionDomain) : String × List String :=
  let name := varName selDomain.selection
  match lookupA model.ownSelection name with
  | some _ => ("null", [bindScalesWarning])
  | none =>
    let selCmpt := model.getSel name
    match selDomain.field, selDomain.encoding with
    | some f, _ => (accessPathWithDatum f name, [])
    | none, none =>
      let field := firstProjectField selCmpt
      (accessPathWithDatum field name,
       if selCmpt.project.length > 1 then [fieldOrEncodingWarning field] else [])
    | none, some encoding =>
      let encodings := selCmpt.project.filter (fun p => p.channel = some encoding)
      if encodings.length = 0 ∨ encodings.length > 1 then
        let field := firstProjectField selCmpt
        (accessPathWithDatum field name,
         [encodingMatchWarning (encodings.length = 0) encoding
            selDomain.selection field])
      else
        (accessPathWithDatum ((encodings.headD { field := "" }).field) name, [])

/-! ## Legend components and mergeLegendComponent / parseNonUnitLegend -/

/-- The fixed enumerated set of legend properties handled by the merge loop.
Modelled from the spec: the full `VG_LEGEND_PROPERTIES` enumeration lives in
`legend.ts`, outside the provided sources; the properties the merge rules
single out (`orient`, `type`, `symbolType`, `title`) are included together
with representative default-rule properties (`encode`, `values`). -/
inductive LProp where
  | orient | lType | symbolType | title | encode | values
deriving DecidableEq

/-- The legend `encode` block as seen by the merge step: an index of optional
per-part entries whose contents are opaque mark-encode fragments. -/
structure LegendEncodeIdx where
  gradient : Option String := none
  labels : Option String := none
  symbols : Option String := none
deriving DecidableEq

/-- A legend property value: a plain (string-like) value or an encode block. -/
inductive LValue where
  | str : String → LValue
  | enc : LegendEncodeIdx → LValue
deriving DecidableEq

/-- One half (explicit or implicit) of a legend component: the optional value
of each legend property. -/
structure LegendProps where
  orient : Option LValue := none
  lType : Option LValue := none
  symbolType : Option LValue := none
  title : Option LValue := none
  encode : Option LValue := none
  values : Option LValue := none
deriving DecidableEq

/-- Read a property slot of a property map. -/
def LegendProps.get (p : LegendProps) : LProp → Option LValue
  | .orient => p.orient
  | .lType => p.lType
  | .symbolType => p.symbolType
  | .title => p.title
  | .encode => p.encode
  | .values => p.values

/-- Write a property slot of a property map. -/
def LegendProps.set (p : LegendProps) (prop : LProp) (v : Option LValue) :
    LegendProps :=
  match prop with
  | .orient => { p with orient := v }
  | .lType => { p with lType := v }
  | .symbolType => { p with symbolType := v }
  | .title => { p with title := v }
  | .encode => { p with encode := v }
  | .values => { p with values := v }

/-- A legend component: a property map split into an explicit and an implicit
half (explicit = user- or necessity-specified, implicit = config default). -/
structure LegendComponent where
  explicit : LegendProps := {}
  implicit : LegendProps := {}
deriving DecidableEq

/-- A `(value, explicit-flag)` pair as returned by `getWithExplicit`; the
value is `none` when the property is set in neither half. -/
structure ExplicitValue where
  explicit : Bool
  value : Option LValue
deriving DecidableEq

/-- Modelled from the spec: `makeImplicit` wraps a value as an implicit
(config-default provenance) property value. -/
def makeImplicit (v : LValue) : ExplicitValue := ⟨false, some v⟩

/-- Modelled from the spec: `getWithExplicit` reads a property with its
provenance flag; the explicit half has precedence over the implicit half. -/
def LegendComponent.getWithExplicit (l : LegendComponent) (prop : LProp) :
    ExplicitValue :=
  match l.explicit.get prop with
  | some v => ⟨true, some v⟩
  | none =>
    match l.implicit.get prop with
    | some v => ⟨false, some v⟩
    | none => ⟨false, none⟩

/-- Modelled from the spec: `setWithExplicit` stores a defined value in the
half selected by its provenance flag, removing it from the other half; an
undefined value is not stored at all. -/
def LegendComponent.setWithExplicit (l : LegendComponent) (prop : LProp)
    (ev : ExplicitValue) : LegendComponent :=
  match ev.value with
  | some v =>
    if ev.explicit then
      { explicit := l.explicit.set prop (some v), implicit := l.implicit.set prop none }
    else
      { explicit := l.explicit.set prop none, implicit := l.implicit.set prop (some v) }
  | none => l

/-- Modelled from the spec: `Split.clone` duplicates both halves; on the
immutable embedding it is the identity. -/
def LegendComponent.clone (l : LegendComponent) : LegendComponent := l

/-- Modelled from the spec: the default per-property tie-break rule keeps the
first (parent-side) value when both sides have equal provenance and different
values (a merge-conflict warning is logged, which the embedding drops). -/
def defaultTieBreaker (v1 _v2 : ExplicitValue) : ExplicitValue := v1

/-- `mergeSymbolType` from `compile/legend/parse.ts`: prefer `"circle"` on
the child side, otherwise keep the parent side. -/
def mergeSymbolType (st1 st2 : ExplicitValue) : ExplicitValue :=
  if st2.value = some (.str "circle") then st2 else st1

/-- Modelled from the spec: the shared title-combining rule keeps equal
titles and otherwise joins them with a comma, with the parent's provenance. -/
def mergeTitle : Option LValue → Option LValue → Option LValue
  | some (.str a), some (.str b) =>
    if a = b then some (.str a) else some (.str (a ++ ", " ++ b))
  | a, _ => a

/-- Modelled from the spec: `mergeTitleComponent` combines titles via
`mergeTitle` keeping the first side's provenance flag. -/
def mergeTitleComponent (v1 v2 : ExplicitValue) : ExplicitValue :=
  ⟨v1.explicit, mergeTitle v1.value v2.value⟩

/-- The tie-breaker function passed to `mergeValuesWithExplicit` in
`mergeLegendComponent`, together with the `typeMerged := true` effect of its
`type` case (threaded as the second component). -/
def legendTieBreaker (prop : LProp) (v1 v2 : ExplicitValue) :
    ExplicitValue × Bool :=
  match prop with
  | .symbolType => (mergeSymbolType v1 v2, false)
  | .title => (mergeTitleComponent v1 v2, false)
  | .lType => (makeImplicit (.str "symbol"), true)
  | _ => (defaultTieBreaker v1 v2, false)

/-- Modelled from the spec: `mergeValuesWithExplicit` (in `split.ts`, outside
the provided sources) keeps the defined side, lets an explicit value beat an
implicit one, keeps the first of two equal values, and otherwise calls the
tie-breaker.  The Bool component is the `typeMerged` effect of the legend
tie-breaker. -/
def mergeValuesWithExplicit (v1 v2 : ExplicitValue) (prop : LProp) :
    ExplicitValue × Bool :=
  if v1.value = none then (v2, false)
  else if v1.explicit && !v2.explicit then (v1, false)
  else if v2.explicit && !v1.explicit then (v2, false)
  else if v1.value = v2.value then (v1, false)
  else legendTieBreaker prop v1 v2

/-- One iteration of the merge loop of `mergeLegendComponent`: merge the
property's value pair (threading the `typeMerged` flag) and store it on the
running merged component. -/
def mergeStep (childLegend : LegendComponent) (acc : LegendComponent × Bool)
    (prop : LProp) : LegendComponent × Bool :=
  let mv := mergeValuesWithExplicit (acc.1.getWithExplicit prop)
    (childLegend.getWithExplicit prop) prop
  (acc.1.setWithExplicit prop mv.1, acc.2 || mv.2)

/-- The property list iterated by the merge loop. -/
def VG_LEGEND_PROPERTIES : List LProp :=
  [.title, .lType, .symbolType, .orient, .values, .encode]

/-- Truthiness of `((half || {}).encode || {}).gradient`. -/
def hasGradientEncode (p : LegendProps) : Bool :=
  match p.encode with
  | some (.enc e) => e.gradient.isSome
  | _ => false

/-- Modelled from the spec: `deleteNestedProperty(half, ['encode',
'gradient'])` strips the `gradient` entry of the half's encode block,
removing the `encode` entry itself when it becomes empty. -/
def deleteGradientEncode (p : LegendProps) : LegendProps :=
  match p.encode with
  | some (.enc e) =>
    let e2 : LegendEncodeIdx := { e with gradient := none }
    if e2 = ({} : LegendEncodeIdx) then { p with encode := none }
    else { p with encode := some (.enc e2) }
  | _ => p

/-- `mergeLegendComponent`: an absent running merge is replaced by a clone of
the child; two explicit, different `orient` values make the whole merge fail
(`none`); otherwise every property of `VG_LEGEND_PROPERTIES` is merged with
the legend tie-breaker, and if the `type` tie-break fired, any `gradient`
encode entry is stripped from both the implicit and the explicit half. -/
def mergeLegendComponent (mergedLegend : Option LegendComponent)
    (childLegend : LegendComponent) : Option LegendComponent :=
  match mergedLegend with
  | none => some childLegend.clone
  | some mergedLegend =>
    let mergedOrient := mergedLegend.getWithExplicit .orient
    let childOrient := childLegend.getWithExplicit .orient
    if mergedOrient.explicit = true ∧ childOrient.explicit = true ∧
        mergedOrient.value ≠ childOrient.value then
      none
    else
      let mt := VG_LEGEND_PROPERTIES.foldl (mergeStep childLegend)
        (mergedLegend, false)
      let merged :=
        if mt.2 = true ∧ hasGradientEncode mt.1.implicit = true then
          { mt.1 with implicit := deleteGradientEncode mt.1.implicit }
        else mt.1
      let merged2 :=
        if mt.2 = true ∧ hasGradientEncode merged.explicit = true then
          { merged with explicit := deleteGradientEncode merged.explicit }
        else merged
      some merged2

/-- A child of a composite model as consumed by `parseNonUnitLegend`: its
parsed per-channel legend components in key order (the source first calls
`parseLegend(child)` to populate them; the embedding takes them as given). -/
structure NonUnitChild where
  legends : List (Channel × LegendComponent)

/-- Modelled from the spec: `parseGuideResolve` (in `resolve.ts`, outside the
provided sources) computes a channel's legend resolve policy from the
composite's configured resolution table, unless a policy has already been
recorded at this level, in which case that recorded policy is kept; an
unspecified policy defaults to `"shared"`. -/
def parseGuideResolve (configured : List (Channel × String))
    (current : List (Channel × String)) (channel : Channel) : String :=
  match lookupA current channel with
  | some r => r
  | none => (lookupA configured channel).getD "shared"

/-- The accumulated state of `parseNonUnitLegend`: the parent-level legend
components and the per-channel legend resolve policies. -/
structure NonUnitState where
  legends : List (Channel × LegendComponent)
  resolveLegend : List (Channel × String)
deriving DecidableEq

/-- `parseNonUnitLegend` (first phase): for every child and every channel the
child produced a legend for, record the channel's resolve policy; under
`"shared"`, merge the child's component into the parent-level one, and on a
failed merge delete the parent-level entry and flip the channel's resolve to
`"independent"`.  The source's second phase only deletes the lifted entries
from the children and does not change the returned parent-level index. -/
def parseNonUnitLegend (configured : List (Channel × String))
    (children : List NonUnitChild) : NonUnitState :=
  children.foldl
    (fun st child =>
      child.legends.foldl
        (fun st chl =>
          let channel := chl.1
          let childLegend := chl.2
          let r := parseGuideResolve configured st.resolveLegend channel
          let st : NonUnitState :=
            { st with resolveLegend := upsertA st.resolveLegend channel r }
          if r = "shared" then
            match mergeLegendComponent (lookupA st.legends channel) childLegend with
            | some m => { st with legends := upsertA st.legends channel m }
            | none =>
              { legends := removeA st.legends channel
                resolveLegend := upsertA st.resolveLegend channel "independent" }
          else st)
        st)
    ⟨[], []⟩

/-! ## Signals and assembleInteractiveLegendSignals -/

/-- An event trigger of a signal rule: an event-selector string, or the
object-array form `[{source: 'scope', type: 'click'}]` used by the per-field
legend signals. -/
inductive SignalEvents where
  | str : String → SignalEvents
  | scopeClick : SignalEvents
deriving DecidableEq

/-- One event-handler rule `{events, update}` of a signal. -/
structure OnRule where
  events : SignalEvents
  update : String
deriving DecidableEq

/-- A reactive signal `{name, on}` as touched by the interactive-legend
pass (the other signal fields are not read or written by it; the source field
`on` is a reserved word in Lean and is embedded as `onRules`). -/
structure Signal where
  name : String
  onRules : List OnRule := []
deriving DecidableEq

/-- The ignore-legend guard: `selectionFields.reduce(...)` prepends, for each
field, a pair of mark-name tests against that field's legend symbol and label
marks, ending in a dangling `&& `. -/
def ignoreLegendExpression (selectionFields : List String) : String :=
  selectionFields.foldl
    (fun exp field =>
      "item().mark.name !== \x27symbols_" ++ field ++ LEGEND ++
        "\x27 && item().mark.name !== \x27labels_" ++ field ++ LEGEND ++
        "\x27 && " ++ exp)
    ""

/-- The `datum` constant of `assembleInteractiveLegendSignals`. -/
def voronoiDatum : String := "(item().isVoronoi ? datum.datum : datum)"

/-- The body of the `selections.forEach` loop of
`assembleInteractiveLegendSignals`: prefix the first update rule of the
selection's tuple signal with the ignore-legend guard, then — for a
single-field selection — append the legend-click handler to the tuple signal;
for a multi-field selection, prepend one per-field latch signal per projected
field, append the combined AND handler, and rewire the selection's toggle
signal behind the guard.  The source mutates the signal objects in place;
the embedding rebuilds the list (`updateFirst` mirrors `filter(...)[0]`
followed by mutation, leaving the list unchanged when the looked-up signal is
absent, where the source would fault). -/
def legendSignalsForSelection (model : UnitModel) (selectionFields : List String)
    (signals : List Signal) (selection : InteractiveSelections) : List Signal :=
  let name := selection.name
  let ile := ignoreLegendExpression selectionFields
  let signals := updateFirst (fun s => s.name = name ++ TUPLE)
    (fun s =>
      match s.onRules with
      | [] => s
      | r :: rest => { s with onRules := { r with update := ile ++ r.update } :: rest })
    signals
  let eventExpression := selection.fields.foldl
    (fun expression field =>
      "@symbols_" ++ field ++ LEGEND ++ ":click, @labels_" ++ field ++ LEGEND ++
        ":click, " ++ expression)
    ""
  if selection.fields.length ≠ 1 then
    let newSignals := selection.fields.map (fun field =>
      ({ name := name ++ "_" ++ field ++ "_legend"
         onRules := [
          { events := .scopeClick
            update := ile ++ " item().mark.marktype !== \x27group\x27 ? " ++
              voronoiDatum ++ "[\x27" ++ field ++ "\x27] : (!(" ++ ile.dropRight 4 ++
              ") ? " ++ name ++ "_" ++ field ++ "_legend : null)" },
          { events := .str ("@symbols_" ++ field ++ LEGEND ++ ":click, @labels_" ++
              field ++ LEGEND ++ ":click")
            update := "datum.value" }] } : Signal))
    let fieldSignals := selection.fields.map (fun field =>
      name ++ "_" ++ field ++ "_legend")
    let signals := newSignals.reverse ++ signals
    let signals := updateFirst (fun s => s.name = name ++ TUPLE)
      (fun s => { s with onRules := s.onRules ++ [
        { events := .str eventExpression
          update := String.intercalate " && " fieldSignals ++ " ? \x7bunit: " ++
            model.unitNameExpr ++ ", fields: " ++ name ++
            "_tuple_fields, values: [ " ++ String.intercalate "," fieldSignals ++
            " ]\x7d : " ++ s.name }] })
      signals
    updateFirst (fun s => s.name = name ++ "_toggle")
      (fun s =>
        match s.onRules with
        | [] => s
        | r :: rest =>
          { s with onRules :=
              { r with update := ile.dropRight 4 ++ " ? event.shiftKey : false" } ::
                rest })
      signals
  else
    updateFirst (fun s => s.name = name ++ TUPLE)
      (fun s => { s with onRules := s.onRules ++ [
        { events := .str eventExpression
          update := "\x7bunit: " ++ model.unitNameExpr ++ ", fields: " ++ name ++
            "_tuple_fields, values: [datum.value]\x7d" }] })
      signals

/-- `assembleInteractiveLegendSignals`: compute the deduplicated union of the
projected fields of the qualifying selections, then run the per-selection
rewiring over the signal list.  `assembleUnitSelectionSignals` delegates here
exactly when `interactiveLegendExists(model)` is non-empty. -/
def assembleInteractiveLegendSignals (model : UnitModel) (signals : List Signal)
    (selections : List InteractiveSelections) : List Signal :=
  let selectionFields := uniqueFirst (selections.map (fun s => s.fields)).flatten
  selections.foldl (legendSignalsForSelection model selectionFields) signals

/-! ## updateInteractiveLegendComponent (legend encode rewriting) -/

/-- A literal value inside a generated encode entry: a number (the opacity
constants) or a string (the stroke colors). -/
inductive LitVal where
  | num : ℚ → LitVal
  | str : String → LitVal
deriving DecidableEq

/-- One `{test?, value?}` entry of an encode channel. -/
structure CondEntry where
  test : Option String := none
  value : Option LitVal := none
deriving DecidableEq

/-- The value of an encode channel: the single-object form `{value: v}` or
the conditional-array form `[{test, value}, {value}]`. -/
inductive ChanVal where
  | plain : CondEntry → ChanVal
  | conds : List CondEntry → ChanVal
deriving DecidableEq

/-- The `update` object of a legend encode part; `opacity` and `stroke` are
the channels the interactive-legend rewriting reads and writes, the other
channels are carried through opaquely. -/
structure EncodeUpdateObj where
  opacity : Option ChanVal := none
  stroke : Option ChanVal := none
  rest : List (String × String) := []
deriving DecidableEq

/-- One part (`labels`, `symbols`, ...) of a legend encode block:
`{name?, interactive?, update}`. -/
structure EncodePartC where
  name : Option String := none
  interactive : Option Bool := none
  update : EncodeUpdateObj := {}
deriving DecidableEq

/-- A legend encode block indexed by part. -/
structure LegendEncodeC where
  labels : Option EncodePartC := none
  symbols : Option EncodePartC := none
  gradient : Option EncodePartC := none
  legend : Option EncodePartC := none
  title : Option EncodePartC := none
deriving DecidableEq

/-- The two parts rewritten by the interactive-legend pass. -/
inductive LPart where
  | labels | symbols
deriving DecidableEq

/-- The part's key string. -/
def LPart.partName : LPart → String
  | .labels => "labels"
  | .symbols => "symbols"

/-- Read a part of the encode block. -/
def LegendEncodeC.getPart (e : LegendEncodeC) : LPart → Option EncodePartC
  | .labels => e.labels
  | .symbols => e.symbols

/-- Write a part of the encode block. -/
def LegendEncodeC.setPart (e : LegendEncodeC) (p : LPart) (v : EncodePartC) :
    LegendEncodeC :=
  match p with
  | .labels => { e with labels := some v }
  | .symbols => { e with symbols := some v }

/-- The highest-specificity selection choice of
`updateInteractiveLegendComponent`: scan the selections, keeping the one with
the most projected fields among those whose fields contain the channel's
field (a strict `>` keeps the earliest on ties); the source tracks the index,
the embedding tracks the selection itself together with `maxFields`. -/
def chooseSelection (field : String) (sels : List InteractiveSelections) :
    Nat × Option InteractiveSelections :=
  sels.foldl
    (fun acc s =>
      if s.fields.length > acc.1 ∧ s.fields.contains field then
        (s.fields.length, some s)
      else acc)
    (0, none)

/-- The conditional test of the rewritten encode entries: against the store
(single-field selection) or against the latched per-field legend signal
(multi-field selection). -/
def legendCondTest (maxProjSelection : InteractiveSelections) (field : String) :
    String :=
  if maxProjSelection.fields.length > 1 then
    "!" ++ maxProjSelection.name ++ "_" ++ field ++ "_legend || datum.value === " ++
      maxProjSelection.name ++ "_" ++ field ++ "_legend"
  else
    "!(length(data(" ++ maxProjSelection.store ++ "))) || vlSelectionTest(" ++
      maxProjSelection.store ++ ", \x7b" ++ field ++ ": datum.value\x7d)"

/-- The per-part body of `updateInteractiveLegendComponent`: take the part's
existing update object (or fabricate `{opacity: {value: 0.7}}` when the part
is absent), rewrite its `stroke` (for the symbols part on the opacity
channel) or its `opacity` (otherwise) into a two-entry conditional keeping
the existing base value — defaulting to `'#000000'` / `0.7` — and dimming to
`'#aaaaaa'` / `0.2`, and reattach the part renamed `<part>_<field>_legend`
and flagged interactive. -/
def updateLegendPart (channel : Channel) (field : String)
    (maxProjSelection : InteractiveSelections) (enc : LegendEncodeC)
    (part : LPart) : LegendEncodeC :=
  let updateValue :=
    match enc.getPart part with
    | some p => p.update
    | none => { opacity := some (.plain { value := some (.num 0.7) }) }
  let test := legendCondTest maxProjSelection field
  let updateValue :=
    if part = .symbols ∧ channel = .opacity then
      let strokeValue : Option LitVal :=
        match updateValue.stroke with
        | some (.plain ce) => ce.value
        | some (.conds _) => none
        | none => some (.str "#000000")
      { updateValue with stroke := some (.conds
          [{ test := some test, value := strokeValue },
           { value := some (.str "#aaaaaa") }]) }
    else
      let opacityValue : Option LitVal :=
        match updateValue.opacity with
        | some (.plain ce) => ce.value
        | some (.conds _) => none
        | none => some (.num 0.7)
      { updateValue with opacity := some (.conds
          [{ test := some test, value := opacityValue },
           { value := some (.num 0.2) }]) }
  enc.setPart part
    { name := some (part.partName ++ "_" ++ field ++ LEGEND)
      interactive := some true
      update := updateValue }

/-- `updateInteractiveLegendComponent`: only the color/opacity/size/shape
channels are rewritten; the channel's encoded field selects the
highest-specificity projecting selection (no rewrite if no selection projects
the field), and the `labels` and `symbols` parts are rewritten in turn.  The
source reads `model.fieldDef(channel).field` unconditionally; a missing field
definition (which would fault there) yields the empty field name here. -/
def updateInteractiveLegendComponent (model : UnitModel)
    (legendEncode : LegendEncodeC) (channel : Channel)
    (interactiveSelections : List InteractiveSelections) : LegendEncodeC :=
  match channel with
  | .color | .opacity | .size | .shape =>
    let field :=
      match model.fieldDefs channel with
      | some fd => fd.field
      | none => ""
    let chosen := chooseSelection field interactiveSelections
    if chosen.1 = 0 then legendEncode
    else
      let maxProjSelection := chosen.2.getD { name := "", store := "", fields := [] }
      [LPart.labels, LPart.symbols].foldl
        (updateLegendPart channel field maxProjSelection) legendEncode
  | _ => legendEncode

/-! ## Concrete witness models -/

/-- The unit model of the C8 witness: a single selection named `brush`. -/
def mC8 : UnitModel := { selections := [{ name := "brush" }] }

/-- The models of the C1 witness: one selection with each `empty` policy. -/
def mC1all : UnitModel :=
  { getSel := fun _ => { name := "sel", empty := "all" } }

/-- Companion model for the C1 witness with `empty` policy `none`. -/
def mC1none : UnitModel :=
  { getSel := fun _ => { name := "sel", empty := "none" } }

/-- The C2 counterexample model: a root view with one selection projecting
only field `a`, while color encodes `a` and opacity encodes `b` (no bin,
aggregate or time-unit anywhere). -/
def mC2 : UnitModel :=
  { parent := false
    selections := [{ name := "sel", fields := some ["a"] }]
    fieldDefs := fun ch =>
      match ch with
      | .color => some { field := "a" }
      | .opacity => some { field := "b" }
      | _ => none }

/-- The selection of the C6 witness: two projection entries on channels `x`
and `y`. -/
def selC6 : SelectionComponent :=
  { name := "pick"
    project := [{ field := "a", channel := some "x" },
                { field := "b", channel := some "y" }] }

/-- The C6 witness model without an own same-named selection component. -/
def mC6 : UnitModel := { getSel := fun _ => selC6 }

/-- The C6 witness model that already owns a selection named `pick`. -/
def mC6own : UnitModel :=
  { ownSelection := [("pick", selC6)], getSel := fun _ => selC6 }

/-- The C3 witness component with explicit `orient: left`. -/
def lC3left : LegendComponent := { explicit := { orient := some (.str "left") } }

/-- The C3 witness component with explicit `orient: right`. -/
def lC3right : LegendComponent := { explicit := { orient := some (.str "right") } }

/-- The C4 witness component: implicit `type: gradient` with a `gradient`
encode entry in the implicit half. -/
def lC4gradient : LegendComponent :=
  { implicit := { lType := some (.str "gradient")
                  encode := some (.enc { gradient := some "g" }) } }

/-- The C4 witness component: implicit `type: symbol`. -/
def lC4symbol : LegendComponent :=
  { implicit := { lType := some (.str "symbol") } }

/-- The C9/C10 witness selection list. -/
def selsC9 : List InteractiveSelections :=
  [{ name := "s", store := "\"s_store\"", fields := ["a"] }]

/-- The C9 witness model: color encodes field `a`. -/
def mC9 : UnitModel :=
  { fieldDefs := fun ch =>
      match ch with
      | .color => some { field := "a" }
      | _ => none }

/-- The C10 witness model: opacity encodes field `a`. -/
def mC10 : UnitModel :=
  { fieldDefs := fun ch =>
      match ch with
      | .opacity => some { field := "a" }
      | _ => none }

/-- The C5 witness model. -/
def mC5 : UnitModel := { unitNameExpr := "\"u\"" }

/-! ## Helper lemmas -/

theorem mergeLegendComponent_none (l : LegendComponent) :
    mergeLegendComponent none l = some l := rfl

theorem isEmpty_false_iff (l : List VgData) : l.isEmpty = false ↔ l ≠ [] := by
  cases l <;> simp

theorem assembleInitList_eq_map (l : List InitValue) (wrap : String → String) :
    assembleInitList l wrap = l.map (fun v => assembleInit v wrap) := by
  induction l with
  | nil => rfl
  | cons x xs ih => simp [assembleInitList, ih]

theorem c1_prefix_merge (s t : String) :
    "!(" ++ ("length(data(" ++ (s ++ ("))" ++ (") || " ++ t)))) =
      "!(length(data(" ++ (s ++ ("))) || " ++ t)) := by
  have hab : ("!(" : String) ++ "length(data(" = "!(length(data(" := by decide
  have hcd : ("))" : String) ++ ") || " = "))) || " := by decide
  calc "!(" ++ ("length(data(" ++ (s ++ ("))" ++ (") || " ++ t))))
      = ("!(" ++ "length(data(") ++ (s ++ (("))" ++ ") || ") ++ t)) := by
        simp only [String.append_assoc]
    _ = "!(length(data(" ++ (s ++ ("))) || " ++ t)) := by rw [hab, hcd]

theorem ensureStoreStep_preserves (d : List VgData) (s : SelectionComponent)
    (n : String) (h : (d.filter (fun x => x.name = n)).isEmpty = false) :
    ((ensureStoreStep d s).filter (fun x => x.name = n)).isEmpty = false := by
  unfold ensureStoreStep
  split
  · rw [List.filter_append, isEmpty_false_iff] at *
    intro hcontra
    exact h (List.append_eq_nil.mp hcontra).1
  · exact h

theorem ensureStoreStep_present (d : List VgData) (s : SelectionComponent) :
    ((ensureStoreStep d s).filter
      (fun x => x.name = s.name ++ STORE)).isEmpty = false := by
  unfold ensureStoreStep
  split
  · rw [List.filter_append, isEmpty_false_iff]
    simp
  · next h => simpa using h

theorem foldl_ensureStore_preserves (sels : List SelectionComponent)
    (d : List VgData) (n : String)
    (h : (d.filter (fun x => x.name = n)).isEmpty = false) :
    ((sels.foldl ensureStoreStep d).filter
      (fun x => x.name = n)).isEmpty = false := by
  induction sels generalizing d with
  | nil => simpa using h
  | cons s ss ih => exact ih _ (ensureStoreStep_preserves _ _ _ h)

theorem foldl_ensureStore_present :
    ∀ (sels : List SelectionComponent) (d : List VgData)
      (s : SelectionComponent), s ∈ sels →
      ((sels.foldl ensureStoreStep d).filter
        (fun x => x.name = s.name ++ STORE)).isEmpty = false
  | [], _, _, hs => absurd hs (List.not_mem_nil _)
  | t :: ts, d, s, hs => by
    rcases List.mem_cons.mp hs with h | h
    · subst h
      exact foldl_ensureStore_preserves ts _ _ (ensureStoreStep_present d s)
    · exact foldl_ensureStore_present ts (ensureStoreStep d t) s h

theorem foldl_ensureStore_id :
    ∀ (sels : List SelectionComponent) (d : List VgData),
      (∀ s ∈ sels,
        (d.filter (fun x => x.name = s.name ++ STORE)).isEmpty = false) →
      sels.foldl ensureStoreStep d = d
  | [], _, _ => rfl
  | t :: ts, d, h => by
    have ht := h t (List.mem_cons_self t ts)
    have hstep : ensureStoreStep d t = d := by
      unfold ensureStoreStep
      simp [ht]
    rw [List.foldl_cons, hstep]
    exact foldl_ensureStore_id ts d (fun s hs => h s (List.mem_cons_of_mem _ hs))

theorem LegendProps.get_set_same (p : LegendProps) (q : LProp)
    (v : Option LValue) : (p.set q v).get q = v := by
  cases q <;> rfl

theorem LegendProps.get_set_ne (p : LegendProps) (q r : LProp)
    (v : Option LValue) (h : q ≠ r) : (p.set q v).get r = p.get r := by
  cases q <;> cases r <;> first | exact absurd rfl h | rfl

theorem getWithExplicit_setWithExplicit_ne (m : LegendComponent) (q r : LProp)
    (ev : ExplicitValue) (h : q ≠ r) :
    (m.setWithExplicit q ev).getWithExplicit r = m.getWithExplicit r := by
  rcases ev with ⟨ex, val⟩
  cases val with
  | none => rfl
  | some v =>
    cases ex <;>
      simp [LegendComponent.setWithExplicit, LegendComponent.getWithExplicit,
        LegendProps.get_set_ne _ _ _ _ h]

theorem getWithExplicit_setWithExplicit_implicit (m : LegendComponent)
    (q : LProp) (v : LValue) :
    (m.setWithExplicit q ⟨false, some v⟩).getWithExplicit q = ⟨false, some v⟩ := by
  simp [LegendComponent.setWithExplicit, LegendComponent.getWithExplicit,
    LegendProps.get_set_same]

theorem mergeValuesWithExplicit_flag_ne (v1 v2 : ExplicitValue) (prop : LProp)
    (h : prop ≠ .lType) : (mergeValuesWithExplicit v1 v2 prop).2 = false := by
  unfold mergeValuesWithExplicit legendTieBreaker
  repeat' split
  all_goals first | rfl | simp_all

theorem mergeStep_getWithExplicit_ne (child : LegendComponent)
    (acc : LegendComponent × Bool) (q r : LProp) (h : q ≠ r) :
    ((mergeStep child acc q).1).getWithExplicit r = (acc.1).getWithExplicit r := by
  unfold mergeStep
  exact getWithExplicit_setWithExplicit_ne _ _ _ _ h

theorem mergeStep_flag_ne (child : LegendComponent) (acc : LegendComponent × Bool)
    (prop : LProp) (h : prop ≠ .lType) :
    (mergeStep child acc prop).2 = acc.2 := by
  unfold mergeStep
  simp [mergeValuesWithExplicit_flag_ne _ _ _ h]

theorem mergeStep_type_conflict (child : LegendComponent)
    (acc : LegendComponent × Bool)
    (h1 : (acc.1).getWithExplicit .lType = ⟨false, some (.str "gradient")⟩)
    (h2 : child.getWithExplicit .lType = ⟨false, some (.str "symbol")⟩) :
    ((mergeStep child acc .lType).1).getWithExplicit .lType =
      ⟨false, some (.str "symbol")⟩
    ∧ (mergeStep child acc .lType).2 = true := by
  unfold mergeStep
  rw [h1, h2]
  have hmv : mergeValuesWithExplicit ⟨false, some (.str "gradient")⟩
      ⟨false, some (.str "symbol")⟩ .lType =
      (⟨false, some (.str "symbol")⟩, true) := by decide
  rw [hmv]
  exact ⟨getWithExplicit_setWithExplicit_implicit _ _ _, by simp⟩

theorem mergeLoop_type (l1 l2 : LegendComponent)
    (h1 : l1.getWithExplicit .lType = ⟨false, some (.str "gradient")⟩)
    (h2 : l2.getWithExplicit .lType = ⟨false, some (.str "symbol")⟩) :
    ((VG_LEGEND_PROPERTIES.foldl (mergeStep l2) (l1, false)).1).getWithExplicit
      .lType = ⟨false, some (.str "symbol")⟩
    ∧ (VG_LEGEND_PROPERTIES.foldl (mergeStep l2) (l1, false)).2 = true := by
  simp only [VG_LEGEND_PROPERTIES, List.foldl_cons, List.foldl_nil]
  have e1 : ((mergeStep l2 (l1, false) .title).1).getWithExplicit .lType =
      ⟨false, some (.str "gradient")⟩ := by
    rw [mergeStep_getWithExplicit_ne _ _ _ _ (by decide)]
    exact h1
  obtain ⟨e2a, e2b⟩ := mergeStep_type_conflict l2 (mergeStep l2 (l1, false) .title)
    e1 h2
  constructor
  · rw [mergeStep_getWithExplicit_ne _ _ _ _ (by decide),
      mergeStep_getWithExplicit_ne _ _ _ _ (by decide),
      mergeStep_getWithExplicit_ne _ _ _ _ (by decide),
      mergeStep_getWithExplicit_ne _ _ _ _ (by decide)]
    exact e2a
  · rw [mergeStep_flag_ne _ _ _ (by decide), mergeStep_flag_ne _ _ _ (by decide),
      mergeStep_flag_ne _ _ _ (by decide), mergeStep_flag_ne _ _ _ (by decide)]
    exact e2b

theorem deleteGradientEncode_lType (p : LegendProps) :
    (deleteGradientEncode p).lType = p.lType := by
  unfold deleteGradientEncode
  split
  all_goals first | rfl | (dsimp only; split <;> rfl)

theorem hasGradientEncode_delete (p : LegendProps) :
    hasGradientEncode (deleteGradientEncode p) = false := by
  rcases hp : p.encode with _ | v
  · simp [deleteGradientEncode, hasGradientEncode, hp]
  · cases v with
    | str s => simp [deleteGradientEncode, hasGradientEncode, hp]
    | enc e =>
      simp only [deleteGradientEncode, hp]
      split
      · simp [hasGradientEncode]
      · simp [hasGradientEncode]

theorem getWithExplicit_strip_implicit (c : LegendComponent) :
    ({ c with implicit := deleteGradientEncode c.implicit } :
        LegendComponent).getWithExplicit .lType = c.getWithExplicit .lType := by
  unfold LegendComponent.getWithExplicit
  simp [LegendProps.get, deleteGradientEncode_lType]

theorem getWithExplicit_strip_explicit (c : LegendComponent) :
    ({ c with explicit := deleteGradientEncode c.explicit } :
        LegendComponent).getWithExplicit .lType = c.getWithExplicit .lType := by
  unfold LegendComponent.getWithExplicit
  simp [LegendProps.get, deleteGradientEncode_lType]

theorem getWithExplicit_strip_both (c : LegendComponent) :
    ({ explicit := deleteGradientEncode c.explicit,
       implicit := deleteGradientEncode c.implicit } :
        LegendComponent).getWithExplicit .lType = c.getWithExplicit .lType := by
  unfold LegendComponent.getWithExplicit
  simp [LegendProps.get, deleteGradientEncode_lType]

theorem uniqueFirst_singleton (f : String) : uniqueFirst [f] = [f] := by
  simp [uniqueFirst]

theorem updateFirst_append {α : Type} (p : α → Bool) (f : α → α)
    (pre : List α) (x : α) (post : List α)
    (hpre : ∀ s ∈ pre, p s = false) (hx : p x = true) :
    updateFirst p f (pre ++ x :: post) = pre ++ f x :: post := by
  induction pre with
  | nil => simp [updateFirst, hx]
  | cons a as ih =>
    have ha := hpre a (List.mem_cons_self a as)
    simp [updateFirst, ha, ih (fun s hs => hpre s (List.mem_cons_of_mem _ hs))]

/-! ## Claim theorems -/

/-- Claim C7: `assembleInit` renders an array as a bracketed, comma-joined
list of the recursively assembled elements with `wrap` not applied to the
brackets, a date/time object via the date-expression constructor then `wrap`,
and any other scalar as its JSON serialization then `wrap`; on
`[{year:2020, month:1, date:1}, 5]` with the identity wrap it yields a
two-element bracketed expression whose first element is the date-constructor
expression and whose second element is the literal `5`. -/
theorem assembleInit_rendering :
    (∀ (wrap : String → String) (l : List InitValue),
      assembleInit (.arr l) wrap =
        "[" ++ String.intercalate ", " (l.map (fun v => assembleInit v wrap)) ++ "]")
    ∧ (∀ (wrap : String → String) (d : DateTimeRec),
      assembleInit (.dateTime d) wrap = wrap (dateTimeExpr d))
    ∧ (∀ (wrap : String → String) (n : Int),
      assembleInit (.num n) wrap = wrap (toString n))
    ∧ (∀ (wrap : String → String) (s : String),
      assembleInit (.str s) wrap = wrap ("\"" ++ s ++ "\""))
    ∧ assembleInit (.arr [.dateTime ⟨2020, 1, 1⟩, .num 5]) id =
        "[" ++ "datetime(2020, 0, 1, 0, 0, 0, 0)" ++ ", " ++ "5" ++ "]" := by
  refine ⟨?_, ?_, ?_, ?_, ?_⟩
  · intro wrap l
    rw [assembleInit, assembleInitList_eq_map]
  · intro wrap d
    rfl
  · intro wrap n
    rfl
  · intro wrap s
    rfl
  · rfl

/-- Claim C8: `assembleUnitSelectionData` is idempotent with respect to store
datasets — applying it twice to the same model and data list equals applying
it once — and after one application every selection's `<name>_store` dataset
is present. -/
theorem assembleUnitSelectionData_idempotent (model : UnitModel)
    (data : List VgData) :
    assembleUnitSelectionData model (assembleUnitSelectionData model data) =
      assembleUnitSelectionData model data
    ∧ ∀ selCmpt ∈ model.selections,
      ((assembleUnitSelectionData model data).filter
        (fun x => x.name = selCmpt.name ++ STORE)).isEmpty = false := by
  unfold assembleUnitSelectionData
  exact ⟨foldl_ensureStore_id _ _
          (fun s hs => foldl_ensureStore_present _ _ s hs),
        fun s hs => foldl_ensureStore_present _ _ s hs⟩


/-- Witness for C8 at a concrete model and empty data list. -/
theorem assembleUnitSelectionData_idempotent_witness :
    assembleUnitSelectionData mC8 (assembleUnitSelectionData mC8 []) =
      assembleUnitSelectionData mC8 []
    ∧ ((assembleUnitSelectionData mC8 []).filter
        (fun x => x.name = "brush" ++ STORE)).isEmpty = false := by
  refine ⟨(assembleUnitSelectionData_idempotent mC8 []).1, ?_⟩
  exact (assembleUnitSelectionData_idempotent mC8 []).2 { name := "brush" }
    (by simp [mC8])

/-- Claim C1: for a lone-leaf logical tree naming a single selection whose
projection has no time-unit, `assembleSelectionPredicate` prefixes the
parenthesized base test with `!(length(data(<store>))) || ` when the
selection's `empty` policy is `all`, and returns the parenthesized base test
without any empty-store prefix when the policy is `none`. -/
theorem assembleSelectionPredicate_empty_policy (model : UnitModel) (s : String)
    (_hTU : (model.getSel (varName s)).projectTimeUnit = false) :
    ((model.getSel (varName s)).empty = "all" →
      assembleSelectionPredicate model (.leaf s) =
        "!(length(data(" ++ stringValue (varName s ++ STORE) ++ "))) || " ++
          "(" ++ (selPredExpr model s []).1 ++ ")")
    ∧ ((model.getSel (varName s)).empty = "none" →
      assembleSelectionPredicate model (.leaf s) =
        "(" ++ (selPredExpr model s []).1 ++ ")") := by
  constructor
  · intro hall
    simp only [assembleSelectionPredicate, logicalExprS, selPredExpr, hall]
    simp [String.intercalate, String.intercalate.go]
    simp only [String.append_assoc]
    exact c1_prefix_merge _ _
  · intro hnone
    simp only [assembleSelectionPredicate, logicalExprS, selPredExpr, hnone]
    simp



/-- Witness for C1 at concrete selections with `empty: all` / `empty: none`. -/
theorem assembleSelectionPredicate_empty_policy_witness :
    assembleSelectionPredicate mC1all (.leaf "sel") =
      "!(length(data(\"sel_store\"))) || (vlSelectionTest(\"sel_store\", datum))"
    ∧ assembleSelectionPredicate mC1none (.leaf "sel") =
      "(vlSelectionTest(\"sel_store\", datum))" := by
  constructor
  · rw [(assembleSelectionPredicate_empty_policy mC1all "sel" rfl).1 rfl]
    rfl
  · rw [(assembleSelectionPredicate_empty_policy mC1none "sel" rfl).2 rfl]
    rfl


/-- Counterexample to claim C2 as stated: on `mC2` the selection field set
`{a}` is a strict subset of the encoding field set `{a, b}` — not equal to
it — yet `interactiveLegendExists` returns a non-empty list, because the
source only checks that no selection field is missing from the encoding
fields (`differenceFields`), not the converse. -/
theorem interactiveLegendExists_equality_counterexample :
    interactiveLegendExists mC2 ≠ []
    ∧ "b" ∈ encodingFieldsOf mC2
    ∧ "b" ∉ selectionFieldsOf (fieldProjSelections mC2) := by
  refine ⟨?_, ?_, ?_⟩ <;> decide

/-- Claim C2 (amended): `interactiveLegendExists` returns a non-empty list
exactly when the model has no parent, at least one selection carries a
projected-fields list, and every projected selection field occurs among the
deduplicated color/opacity/size/shape encoding fields (encodings with bin,
aggregate or time-unit excluded) — a subset condition, not set equality; the
non-empty result is the list of field-projecting selections. -/
theorem interactiveLegendExists_characterization (model : UnitModel) :
    (interactiveLegendExists model ≠ [] ↔
      (model.parent = false ∧ fieldProjSelections model ≠ [] ∧
        ∀ f ∈ selectionFieldsOf (fieldProjSelections model),
          f ∈ encodingFieldsOf model))
    ∧ (interactiveLegendExists model ≠ [] →
        interactiveLegendExists model = fieldProjSelections model) := by
  unfold interactiveLegendExists
  by_cases hp : model.parent = true
  · simp [hp]
  · have hp2 : model.parent = false := by simpa using hp
    by_cases hs : fieldProjSelections model = []
    · simp [hp, hp2, hs]
    · by_cases hd : (selectionFieldsOf (fieldProjSelections model)).filter
          (fun x => !((encodingFieldsOf model).contains x)) = []
      · have hsub : ∀ f ∈ selectionFieldsOf (fieldProjSelections model),
            f ∈ encodingFieldsOf model := by
          intro f hf
          have h2 := List.filter_eq_nil_iff.mp hd f hf
          simp only [Bool.not_eq_true', Bool.not_eq_false] at h2
          simpa [List.contains, List.elem_iff] using h2
        simp [hp, hp2, hs, hd, hsub]
      · have hnsub : ¬ ∀ f ∈ selectionFieldsOf (fieldProjSelections model),
            f ∈ encodingFieldsOf model := by
          intro hall
          apply hd
          rw [List.filter_eq_nil_iff]
          intro a ha
          simp only [Bool.not_eq_true', Bool.not_eq_false]
          simpa [List.contains, List.elem_iff] using hall a ha
        simp [hp, hp2, hs, hd, hnsub]

/-- Witness for the amended C2 characterization at the concrete model `mC2`:
the result is non-empty and equals the field-projecting selection list. -/
theorem interactiveLegendExists_characterization_witness :
    interactiveLegendExists mC2 = fieldProjSelections mC2
    ∧ interactiveLegendExists mC2 ≠ [] := by
  have h := interactiveLegendExists_characterization mC2
  have hne : interactiveLegendExists mC2 ≠ [] := by decide
  exact ⟨h.2 hne, hne⟩

/-- Claim C6: `assembleSelectionScaleDomain` resolves the domain field in
order — an explicitly given field is used as-is; with an encoding channel
given, a unique matching projection entry's field is used while zero or
several matches fall back to the selection's first projected field with a
non-fatal warning; with neither given, the first projected field is used
(warning when the projection has several fields); and when a same-named
selection component already exists on the model itself, no rewrite occurs —
only a warning is emitted and the literal signal `null` is returned. -/
theorem assembleSelectionScaleDomain_resolution (model : UnitModel)
    (sd : SelectionDomain) :
    (∀ sc, lookupA model.ownSelection (varName sd.selection) = some sc →
      assembleSelectionScaleDomain model sd = ("null", [bindScalesWarning]))
    ∧ (lookupA model.ownSelection (varName sd.selection) = none →
        (∀ f, sd.field = some f →
          assembleSelectionScaleDomain model sd =
            (accessPathWithDatum f (varName sd.selection), []))
        ∧ (sd.field = none → sd.encoding = none →
          assembleSelectionScaleDomain model sd =
            (accessPathWithDatum
              (firstProjectField (model.getSel (varName sd.selection)))
              (varName sd.selection),
             if (model.getSel (varName sd.selection)).project.length > 1 then
               [fieldOrEncodingWarning
                 (firstProjectField (model.getSel (varName sd.selection)))]
             else []))
        ∧ (∀ enc, sd.field = none → sd.encoding = some enc →
          (((model.getSel (varName sd.selection)).project.filter
              (fun p => p.channel = some enc)).length = 1 →
            assembleSelectionScaleDomain model sd =
              (accessPathWithDatum
                ((((model.getSel (varName sd.selection)).project.filter
                    (fun p => p.channel = some enc)).headD
                  { field := "" }).field)
                (varName sd.selection), []))
          ∧ (((model.getSel (varName sd.selection)).project.filter
                (fun p => p.channel = some enc)).length = 0 ∨
              ((model.getSel (varName sd.selection)).project.filter
                (fun p => p.channel = some enc)).length > 1 →
            assembleSelectionScaleDomain model sd =
              (accessPathWithDatum
                (firstProjectField (model.getSel (varName sd.selection)))
                (varName sd.selection),
               [encodingMatchWarning
                 (((model.getSel (varName sd.selection)).project.filter
                    (fun p => p.channel = some enc)).length = 0)
                 enc sd.selection
                 (firstProjectField (model.getSel (varName sd.selection)))])))) := by
  constructor
  · intro sc hsc
    simp [assembleSelectionScaleDomain, hsc]
  · intro hnone
    refine ⟨?_, ?_, ?_⟩
    · intro f hf
      simp [assembleSelectionScaleDomain, hnone, hf]
    · intro hf henc
      simp [assembleSelectionScaleDomain, hnone, hf, henc]
    · intro enc hf henc
      constructor
      · intro h1
        simp [assembleSelectionScaleDomain, hnone, hf, henc, h1]
      · intro h0
        rcases h0 with h0 | h0
        · simp [assembleSelectionScaleDomain, hnone, hf, henc, h0]
        · have h1 : ¬(((model.getSel (varName sd.selection)).project.filter
              (fun p => p.channel = some enc)).length = 0) := by omega
          simp [assembleSelectionScaleDomain, hnone, hf, henc, h0, h1]




/-- Witness for C6: the own-selection branch, the explicit-field branch, the
no-field-no-encoding fallback, the unique-encoding match and the no-match
fallback, each at concrete inputs. -/
theorem assembleSelectionScaleDomain_resolution_witness :
    assembleSelectionScaleDomain mC6own { selection := "pick" } =
      ("null", [bindScalesWarning])
    ∧ assembleSelectionScaleDomain mC6 { selection := "pick", field := some "c" } =
      ("pick[\"c\"]", [])
    ∧ assembleSelectionScaleDomain mC6 { selection := "pick" } =
      ("pick[\"a\"]", [fieldOrEncodingWarning "a"])
    ∧ assembleSelectionScaleDomain mC6 { selection := "pick", encoding := some "y" } =
      ("pick[\"b\"]", [])
    ∧ assembleSelectionScaleDomain mC6 { selection := "pick", encoding := some "z" } =
      ("pick[\"a\"]", [encodingMatchWarning true "z" "pick" "a"]) := by
  refine ⟨?_, ?_, ?_, ?_, ?_⟩
  · rw [(assembleSelectionScaleDomain_resolution mC6own
      { selection := "pick" }).1 selC6 rfl]
  · rw [((assembleSelectionScaleDomain_resolution mC6
      { selection := "pick", field := some "c" }).2 rfl).1 "c" rfl]
    rfl
  · rw [((assembleSelectionScaleDomain_resolution mC6
      { selection := "pick" }).2 rfl).2.1 rfl rfl]
    rfl
  · rw [(((assembleSelectionScaleDomain_resolution mC6
      { selection := "pick", encoding := some "y" }).2 rfl).2.2 "y" rfl rfl).1
      (by decide)]
    rfl
  · rw [(((assembleSelectionScaleDomain_resolution mC6
      { selection := "pick", encoding := some "z" }).2 rfl).2.2 "z" rfl rfl).2
      (by decide)]
    rfl

/-- Claim C3: when both legend components carry an explicit `orient` and the
values differ, `mergeLegendComponent` returns no merged component, and in
`parseNonUnitLegend` the failed merge flips that channel's legend resolve to
`independent` and deletes the parent-level legend entry for the channel. -/
theorem mergeLegendComponent_orient_conflict (l1 l2 : LegendComponent)
    (ch : Channel)
    (h1 : (l1.getWithExplicit .orient).explicit = true)
    (h2 : (l2.getWithExplicit .orient).explicit = true)
    (hne : (l1.getWithExplicit .orient).value ≠ (l2.getWithExplicit .orient).value) :
    mergeLegendComponent (some l1) l2 = none
    ∧ lookupA (parseNonUnitLegend [(ch, "shared")]
        [⟨[(ch, l1)]⟩, ⟨[(ch, l2)]⟩]).legends ch = none
    ∧ lookupA (parseNonUnitLegend [(ch, "shared")]
        [⟨[(ch, l1)]⟩, ⟨[(ch, l2)]⟩]).resolveLegend ch = some "independent" := by
  have hm : mergeLegendComponent (some l1) l2 = none := by
    simp only [mergeLegendComponent]
    rw [if_pos ⟨h1, h2, hne⟩]
  refine ⟨hm, ?_, ?_⟩ <;>
    simp [parseNonUnitLegend, parseGuideResolve, mergeLegendComponent_none,
      lookupA, upsertA, removeA, hm]

/-- Witness for C3: merging explicit `orient: left` with explicit
`orient: right` fails and flips the color channel to independent. -/
theorem mergeLegendComponent_orient_conflict_witness :
    mergeLegendComponent (some lC3left) lC3right = none
    ∧ lookupA (parseNonUnitLegend [(Channel.color, "shared")]
        [⟨[(Channel.color, lC3left)]⟩, ⟨[(Channel.color, lC3right)]⟩]).legends
        Channel.color = none
    ∧ lookupA (parseNonUnitLegend [(Channel.color, "shared")]
        [⟨[(Channel.color, lC3left)]⟩, ⟨[(Channel.color, lC3right)]⟩]).resolveLegend
        Channel.color = some "independent" :=
  mergeLegendComponent_orient_conflict lC3left lC3right Channel.color
    rfl rfl (by decide)

/-- Claim C4: merging two legend components whose `type` values conflict
with equal provenance — the claim's example being one implicit `gradient` and
one implicit `symbol` — produces a merged component whose `type` is the
implicit value `symbol`, and any `gradient` entry under `encode` is removed
from both the implicit and the explicit half of the merged component.  The
orient hypothesis states that the merge does not fail up front. -/
theorem mergeLegendComponent_type_conflict (l1 l2 : LegendComponent)
    (h1 : l1.getWithExplicit .lType = makeImplicit (.str "gradient"))
    (h2 : l2.getWithExplicit .lType = makeImplicit (.str "symbol"))
    (horient : ¬((l1.getWithExplicit .orient).explicit = true ∧
      (l2.getWithExplicit .orient).explicit = true ∧
      (l1.getWithExplicit .orient).value ≠ (l2.getWithExplicit .orient).value)) :
    ∃ m, mergeLegendComponent (some l1) l2 = some m
      ∧ m.getWithExplicit .lType = makeImplicit (.str "symbol")
      ∧ hasGradientEncode m.implicit = false
      ∧ hasGradientEncode m.explicit = false := by
  obtain ⟨e_type, e_flag⟩ := mergeLoop_type l1 l2 h1 h2
  simp only [mergeLegendComponent]
  rw [if_neg horient]
  simp only [e_flag, eq_self_iff_true, true_and]
  refine ⟨_, rfl, ?_, ?_, ?_⟩ <;>
    split <;> split <;>
      simp_all [getWithExplicit_strip_implicit, getWithExplicit_strip_explicit,
        getWithExplicit_strip_both, hasGradientEncode_delete, makeImplicit]

/-- Witness for C4 at concrete components: implicit `gradient` with a
gradient encode entry merged against implicit `symbol`. -/
theorem mergeLegendComponent_type_conflict_witness :
    ∃ m, mergeLegendComponent (some lC4gradient) lC4symbol = some m
      ∧ m.getWithExplicit .lType = makeImplicit (.str "symbol")
      ∧ hasGradientEncode m.implicit = false
      ∧ hasGradientEncode m.explicit = false :=
  mergeLegendComponent_type_conflict lC4gradient lC4symbol
    (by decide) (by decide) (by decide)

/-- Claim C5: for a selection whose projection has exactly one field and that
qualifies for legend binding, the interactive-legend signal pass (invoked by
`assembleUnitSelectionSignals` when `interactiveLegendExists` is non-empty)
appends to that selection's tuple signal a handler whose events are the
`@symbols_<field>_legend:click` and `@labels_<field>_legend:click` selectors
and whose update expression equals
`{unit: <unitName>, fields: <name>_tuple_fields, values: [datum.value]}`, and
prefixes the tuple signal's first existing update rule with the ignore-legend
guard over the legend mark names. -/
theorem assembleInteractiveLegendSignals_single_field (model : UnitModel)
    (name store field : String) (pre post : List Signal) (r : OnRule)
    (rest : List OnRule)
    (hpre : ∀ s ∈ pre, s.name ≠ name ++ TUPLE) :
    assembleInteractiveLegendSignals model
      (pre ++ { name := name ++ TUPLE, onRules := r :: rest } :: post)
      [{ name := name, store := store, fields := [field] }] =
    pre ++
      { name := name ++ TUPLE
        onRules :=
          { r with update := ignoreLegendExpression [field] ++ r.update } ::
            rest ++
            [{ events := .str ("@symbols_" ++ field ++ LEGEND ++
                 ":click, @labels_" ++ field ++ LEGEND ++ ":click, ")
               update := "\x7bunit: " ++ model.unitNameExpr ++ ", fields: " ++
                 name ++ "_tuple_fields, values: [datum.value]\x7d" }] } :: post := by
  have hb : ∀ s ∈ pre, (decide (s.name = name ++ TUPLE)) = false :=
    fun s hs => by simpa using hpre s hs
  simp only [assembleInteractiveLegendSignals, List.map_cons, List.map_nil,
    List.flatten_cons, List.flatten_nil, List.append_nil, List.foldl_cons,
    List.foldl_nil, legendSignalsForSelection]
  rw [updateFirst_append _ _ pre _ post hb (by simp)]
  dsimp only
  rw [if_neg (by simp)]
  rw [updateFirst_append _ _ pre _ post hb (by simp)]
  simp [String.append_empty, uniqueFirst_singleton]

/-- Witness for C5 at a concrete tuple signal and single-field selection. -/
theorem assembleInteractiveLegendSignals_single_field_witness :
    assembleInteractiveLegendSignals mC5
      [{ name := "single_tuple", onRules := [{ events := .str "ev", update := "upd" }] }]
      [{ name := "single", store := "\"single_store\"", fields := ["a"] }] =
    [{ name := "single_tuple"
       onRules :=
        [{ events := .str "ev"
           update := "item().mark.name !== \x27symbols_a_legend\x27 && item().mark.name !== \x27labels_a_legend\x27 && upd" },
         { events := .str "@symbols_a_legend:click, @labels_a_legend:click, "
           update := "\x7bunit: \"u\", fields: single_tuple_fields, values: [datum.value]\x7d" }] }] := by
  have h := assembleInteractiveLegendSignals_single_field mC5 "single"
    "\"single_store\"" "a" [] [] { events := .str "ev", update := "upd" } []
    (by intro s hs; cases hs)
  exact h.trans (by decide)

/-- Claim C9: on every channel the interactive-legend binder rewrites (color,
opacity, size, shape) whose encoded field is projected by some qualifying
selection, both the `labels` and the `symbols` encode part of the result are
renamed `<part>_<field>_legend` and flagged `interactive: true`. -/
theorem updateInteractiveLegendComponent_renames (model : UnitModel)
    (legendEncode : LegendEncodeC) (channel : Channel)
    (sels : List InteractiveSelections) (fd : FieldDef)
    (hch : channel = .color ∨ channel = .opacity ∨ channel = .size ∨
      channel = .shape)
    (hfd : model.fieldDefs channel = some fd)
    (hsel : ¬((chooseSelection fd.field sels).1 = 0)) :
    ∃ lp sp,
      (updateInteractiveLegendComponent model legendEncode channel sels).labels =
        some lp
      ∧ lp.name = some ("labels_" ++ fd.field ++ LEGEND)
      ∧ lp.interactive = some true
      ∧ (updateInteractiveLegendComponent model legendEncode channel sels).symbols =
        some sp
      ∧ sp.name = some ("symbols_" ++ fd.field ++ LEGEND)
      ∧ sp.interactive = some true := by
  rcases hch with h | h | h | h <;> subst h <;>
  · simp only [updateInteractiveLegendComponent, hfd]
    rw [if_neg hsel]
    simp only [List.foldl_cons, List.foldl_nil, updateLegendPart,
      LegendEncodeC.setPart, LegendEncodeC.getPart, LPart.partName]
    exact ⟨_, _, rfl, rfl, rfl, rfl, rfl, rfl⟩



/-- Witness for C9 on the color channel at a concrete model and selection. -/
theorem updateInteractiveLegendComponent_renames_witness :
    ∃ lp sp,
      (updateInteractiveLegendComponent mC9 {} .color selsC9).labels = some lp
      ∧ lp.name = some ("labels_" ++ "a" ++ LEGEND)
      ∧ lp.interactive = some true
      ∧ (updateInteractiveLegendComponent mC9 {} .color selsC9).symbols = some sp
      ∧ sp.name = some ("symbols_" ++ "a" ++ LEGEND)
      ∧ sp.interactive = some true :=
  updateInteractiveLegendComponent_renames mC9 {} .color selsC9 { field := "a" }
    (Or.inl rfl) rfl (by decide)

/-- Claim C10: in `updateInteractiveLegendComponent` on the opacity channel,
a part absent from the incoming encode block gets the fabricated base
`opacity 0.7` in the highlighted branch (dimmed alternative `0.2`), and the
symbols part with no existing stroke value gets base stroke `#000000` in the
highlighted branch (dimmed alternative `#aaaaaa`). -/
theorem updateInteractiveLegendComponent_defaults (model : UnitModel)
    (legendEncode : LegendEncodeC) (sels : List InteractiveSelections)
    (fd : FieldDef)
    (hfd : model.fieldDefs .opacity = some fd)
    (hlabels : legendEncode.labels = none)
    (sp0 : EncodePartC) (hsym : legendEncode.symbols = some sp0)
    (hstroke : sp0.update.stroke = none)
    (hsel : ¬((chooseSelection fd.field sels).1 = 0)) :
    ∃ lp sp t1 t2,
      (updateInteractiveLegendComponent model legendEncode .opacity sels).labels =
        some lp
      ∧ lp.update.opacity = some (.conds
          [{ test := some t1, value := some (.num 0.7) },
           { test := none, value := some (.num 0.2) }])
      ∧ (updateInteractiveLegendComponent model legendEncode .opacity sels).symbols =
        some sp
      ∧ sp.update.stroke = some (.conds
          [{ test := some t2, value := some (.str "#000000") },
           { test := none, value := some (.str "#aaaaaa") }]) := by
  simp only [updateInteractiveLegendComponent, hfd]
  rw [if_neg hsel]
  simp only [List.foldl_cons, List.foldl_nil, updateLegendPart,
    LegendEncodeC.setPart, LegendEncodeC.getPart, LPart.partName, hlabels, hsym,
    hstroke]
  exact ⟨_, _, _, _, rfl, rfl, rfl, rfl⟩


/-- Witness for C10: an encode block with no labels part and a symbols part
carrying no stroke value. -/
theorem updateInteractiveLegendComponent_defaults_witness :
    ∃ lp sp t1 t2,
      (updateInteractiveLegendComponent mC10 { symbols := some {} } .opacity
        selsC9).labels = some lp
      ∧ lp.update.opacity = some (.conds
          [{ test := some t1, value := some (.num 0.7) },
           { test := none, value := some (.num 0.2) }])
      ∧ (updateInteractiveLegendComponent mC10 { symbols := some {} } .opacity
          selsC9).symbols = some sp
      ∧ sp.update.stroke = some (.conds
          [{ test := some t2, value := some (.str "#000000") },
           { test := none, value := some (.str "#aaaaaa") }]) :=
  updateInteractiveLegendComponent_defaults mC10 { symbols := some {} } selsC9
    { field := "a" } rfl rfl {} rfl rfl (by decide)

end VegaLite
